import Mathlib

/-!
Verification of the task-registry storage engine, its audit log and its
snapshot codec, shallowly embedded from the Python sources
(`services/storage.py`, `services/models.py`, `services/action_log.py`).

The JSON documents written and read by the codec are modelled as their parse
trees (`JVal`); `json.dump`/`json.loads` are treated as the identity between a
document and its parse tree, and a file whose text does not parse is modelled
by a dedicated constructor. Each mutating store operation returns, besides the
new store state and its result, the snapshot contents it persisted (if any)
and the audit records it appended, so persistence and logging behaviour can be
stated sequentially.
-/

namespace TaskRegistry

/-- Single-quote character, used to build the error-message strings and the
Python textual rendering without writing a quote character in a literal. -/
def sq : String := (Char.ofNat 39).toString

/-- Parse tree of a JSON document, the values produced by `json.loads`. -/
inductive JVal where
  | null
  | bool (b : Bool)
  | num (n : Int)
  | str (s : String)
  | arr (items : List JVal)
  | obj (fields : List (String × JVal))

/-- Python value passed as a `title` or `priority` argument. The code only
distinguishes strings from every other object (via `isinstance(x, str)`), so
all non-string objects collapse to one constructor. -/
inductive PyVal where
  | str (s : String)
  | other
deriving DecidableEq, Repr

/-- Task record, from `services/models.py` (`@dataclass class Task`). -/
structure Task where
  id : Int
  title : String
  priority : String
  is_done : Bool
deriving DecidableEq, Repr

/-- Characters Python `str.strip()` removes (ASCII whitespace). -/
def pySpace (c : Char) : Bool :=
  c = ' ' || c = '\t' || c = '\n' || c = '\r' || c = '\x0b' || c = '\x0c'

/-- Removal of leading and trailing whitespace from a character list. -/
def stripChars (cs : List Char) : List Char :=
  ((cs.dropWhile pySpace).reverse.dropWhile pySpace).reverse

/-- Python `s.strip()` with no arguments. -/
def pyStrip (s : String) : String := ⟨stripChars s.data⟩

/-- Value of a non-empty all-digit character list, as `int()` reads it. -/
def digitsToNat (ds : List Char) : Option Nat :=
  if ds.isEmpty then none
  else if ds.all Char.isDigit then
    some (ds.foldl (fun n c => 10 * n + (c.toNat - 48)) 0)
  else none

/-- Python `int(s)` on a string: surrounding whitespace is allowed, then an
optional sign and a non-empty digit run; anything else raises `ValueError`,
modelled as `none`. -/
def pyIntOfChars (cs : List Char) : Option Int :=
  match stripChars cs with
  | '-' :: ds => (digitsToNat ds).map (fun n => -(n : Int))
  | '+' :: ds => (digitsToNat ds).map (fun n => (n : Int))
  | ds => (digitsToNat ds).map (fun n => (n : Int))

/-- Allowed priority values, from `ALLOWED_PRIORITIES` in
`services/storage.py`. -/
def ALLOWED_PRIORITIES : List String := ["low", "normal", "high"]

/-- Membership test `priority in ALLOWED_PRIORITIES`. -/
def allowed (p : String) : Bool := ALLOWED_PRIORITIES.contains p

mutual

/-- Python `repr()` of a parsed JSON value (escaping inside strings is not
reproduced; no claim depends on the rendering of non-string values). -/
def pyRepr : JVal → String
  | .null => "None"
  | .bool true => "True"
  | .bool false => "False"
  | .num n => toString n
  | .str s => sq ++ s ++ sq
  | .arr items => "[" ++ pyReprList items ++ "]"
  | .obj fields => "\x7b" ++ pyReprFields fields ++ "\x7d"

/-- Comma-separated `repr()` of list elements. -/
def pyReprList : List JVal → String
  | [] => ""
  | [v] => pyRepr v
  | v :: rest => pyRepr v ++ ", " ++ pyReprList rest

/-- Comma-separated `repr()` of dict entries. -/
def pyReprFields : List (String × JVal) → String
  | [] => ""
  | [(k, v)] => sq ++ k ++ sq ++ ": " ++ pyRepr v
  | (k, v) :: rest => sq ++ k ++ sq ++ ": " ++ pyRepr v ++ ", " ++ pyReprFields rest

end

/-- Python `str()` of a parsed JSON value: the identity on strings, the
textual rendering otherwise. It never fails. -/
def pyStr : JVal → String
  | .str s => s
  | v => pyRepr v

/-- Python `int()` of a parsed JSON value: ints pass through, booleans give
0/1, strings are parsed as integers (surrounding whitespace allowed), and
everything else raises, modelled as `none`. -/
def pyInt : JVal → Option Int
  | .num n => some n
  | .bool b => some (if b then 1 else 0)
  | .str s => pyIntOfChars s.data
  | .null => none
  | .arr _ => none
  | .obj _ => none

/-- Python `bool()` of a parsed JSON value (truthiness). It never fails. -/
def pyBool : JVal → Bool
  | .null => false
  | .bool b => b
  | .num n => n != 0
  | .str s => s != ""
  | .arr items => !items.isEmpty
  | .obj fields => !fields.isEmpty

/-- Lookup `fields[key]` in a parsed JSON object; `json.loads` keeps the last
occurrence of a duplicated key. -/
def jLookup (fields : List (String × JVal)) (key : String) : Option JVal :=
  (fields.reverse.find? (fun kv => kv.1 == key)).map (fun kv => kv.2)

/-- Serialization `Task.to_dict` from `services/models.py`, in source key
order. -/
def Task.to_dict (t : Task) : JVal :=
  .obj [("title", .str t.title), ("id", .num t.id),
        ("priority", .str t.priority), ("isDone", .bool t.is_done)]

/-- Deserialization `Task.from_dict` from `services/models.py`:
`Task(id=int(data["id"]), title=str(data["title"]), priority=str(data["priority"]),
is_done=bool(data["isDone"]))`; a missing key or a failing `int()` raises
(`KeyError`/`ValueError`/`TypeError`), modelled as `none`. -/
def Task.from_dict (fields : List (String × JVal)) : Option Task := do
  let idv ← jLookup fields "id"
  let i ← pyInt idv
  let titlev ← jLookup fields "title"
  let priov ← jLookup fields "priority"
  let donev ← jLookup fields "isDone"
  pure ⟨i, pyStr titlev, pyStr priov, pyBool donev⟩

/-- Lookup `self._tasks.get(task_id)` on the id-keyed task dict, modelled as
an association list keyed by `Task.id`. -/
def dictGet (tasks : List Task) (task_id : Int) : Option Task :=
  tasks.find? (fun t => t.id == task_id)

/-- Store `self._tasks[t.id] = t`: replace in place if the key is present
(Python dicts keep the insertion position), append otherwise. -/
def dictInsert (tasks : List Task) (t : Task) : List Task :=
  if tasks.any (fun u => u.id == t.id) then
    tasks.map (fun u => if u.id == t.id then t else u)
  else tasks ++ [t]

/-- In-place field mutation of the task object stored under `task_id`
(e.g. `task.title = title`). -/
def modifyTask (tasks : List Task) (task_id : Int) (f : Task → Task) : List Task :=
  tasks.map (fun u => if u.id == task_id then f u else u)

/-- Removal `self._tasks.pop(task_id)`. -/
def dictRemove (tasks : List Task) (task_id : Int) : List Task :=
  tasks.filter (fun u => !(u.id == task_id))

/-- Storage-engine state: the in-memory task dict and the next-ID counter,
from `TaskStore.__init__` in `services/storage.py`. -/
structure TaskStore where
  tasks : List Task
  next_id : Int
deriving DecidableEq, Repr

/-- Insertion of a task into an id-sorted list, before the first task whose
id is not smaller (keeping a stable order, as Python `sorted` does). -/
def insertById (t : Task) : List Task → List Task
  | [] => [t]
  | u :: us => if t.id ≤ u.id then t :: u :: us else u :: insertById t us

/-- Sorting `sorted(self._tasks.values(), key=lambda x: x.id)`, as a stable
insertion sort. -/
def sortById : List Task → List Task
  | [] => []
  | t :: ts => insertById t (sortById ts)

/-- Snapshot-file contents written by `TaskStore.save`: the JSON array of all
tasks ordered by id. -/
def saveData (tasks : List Task) : JVal :=
  .arr ((sortById tasks).map Task.to_dict)

/-- Contents `TaskStore.save` persists for a given store state. -/
def TaskStore.save (s : TaskStore) : JVal := saveData s.tasks

/-- On-disk snapshot file as seen by `TaskStore.load`: absent, present but
empty-after-strip or not valid JSON text (`OSError`/`JSONDecodeError`), or a
parsed JSON document. -/
inductive SnapshotFile where
  | absent
  | unparsable
  | parsed (v : JVal)

/-- One iteration of the loading loop in `TaskStore.load`: skip items that
are not dicts (`isinstance(item, dict)`) and items `Task.from_dict` rejects;
otherwise store the task and track the maximal id seen. -/
def loadStep (acc : List Task × Int) (item : JVal) : List Task × Int :=
  match item with
  | .obj fields =>
    match Task.from_dict fields with
    | none => acc
    | some t => (dictInsert acc.1 t, if t.id > acc.2 then t.id else acc.2)
  | _ => acc

/-- Startup restore `TaskStore.load` from `services/storage.py`: an absent or
unreadable or unparsable file, or a document that is not a JSON array, leaves
the store as it is; a parsed array rebuilds the task dict from its
individually well-formed records and sets the counter to `max_id + 1`. -/
def TaskStore.load (s : TaskStore) : SnapshotFile → TaskStore
  | .absent => s
  | .unparsable => s
  | .parsed (.arr items) =>
    let r := items.foldl loadStep ([], 0)
    ⟨r.1, r.2 + 1⟩
  | .parsed _ => s

/-- Audit record appended by `ActionLogger.log` (`services/action_log.py`);
the wall-clock timestamp is outside the model. The `details` mapping of the
store operations only ever holds optional strings. -/
structure LogRecord where
  action : String
  task_id : Option Int
  status : String
  origin : Option String
  details : List (String × Option String)
deriving DecidableEq, Repr

/-- Outcome of one store operation: the state afterwards, the returned value,
the snapshot contents persisted by the `self.save()` call if one was reached,
and the audit records appended. -/
structure OpResult (α : Type) where
  store : TaskStore
  result : α
  saved : Option JVal
  logs : List LogRecord

/-- Validation error message for the title field. -/
def titleMsg : String :=
  "Field " ++ sq ++ "title" ++ sq ++ " must be a non-empty string."

/-- Validation error message for the priority field. -/
def priorityMsg : String :=
  "Field " ++ sq ++ "priority" ++ sq ++ " must be one of: low, normal, high."

/-- Operation `TaskStore.create_task`: isinstance checks on title then
priority, strip both, reject an empty title then a disallowed priority
(`raise ValueError`, modelled as `Except.error` with nothing mutated,
persisted or logged), otherwise allocate `next_id`, insert the task not done,
persist and log success. -/
def TaskStore.create_task (s : TaskStore) (title priority : PyVal)
    (origin : Option String) : OpResult (Except String Task) :=
  match title with
  | .other => ⟨s, .error titleMsg, none, []⟩
  | .str t0 =>
    match priority with
    | .other => ⟨s, .error priorityMsg, none, []⟩
    | .str p0 =>
      let t := pyStrip t0
      let p := pyStrip p0
      if t = "" then ⟨s, .error titleMsg, none, []⟩
      else if !allowed p then ⟨s, .error priorityMsg, none, []⟩
      else
        let task : Task := ⟨s.next_id, t, p, false⟩
        let s2 : TaskStore := ⟨dictInsert s.tasks task, s.next_id + 1⟩
        ⟨s2, .ok task, some s2.save,
          [⟨"create", some s.next_id, "success", origin,
            [("title", some t), ("priority", some p)]⟩]⟩

/-- Second half of `TaskStore.update_task`, entered after the title phase has
run on store `s1` (with `tLogged` the stripped title it will log, if one was
provided): validate and apply the priority, then persist and log success. A
priority that fails validation raises out of the function, so nothing is
persisted or logged, but whatever the title phase already wrote to the task
stays (state `s1`). -/
def updatePriorityPhase (s1 : TaskStore) (task_id : Int) (tLogged : Option String)
    (priority : Option PyVal) (origin : Option String) : OpResult (Except String Bool) :=
  match priority with
  | some .other => ⟨s1, .error priorityMsg, none, []⟩
  | some (.str p0) =>
    let p := pyStrip p0
    if !allowed p then ⟨s1, .error priorityMsg, none, []⟩
    else
      let s2 : TaskStore := ⟨modifyTask s1.tasks task_id (fun u => { u with priority := p }), s1.next_id⟩
      ⟨s2, .ok true, some s2.save,
        [⟨"update", some task_id, "success", origin,
          [("title", tLogged), ("priority", some p)]⟩]⟩
  | none =>
    ⟨s1, .ok true, some s1.save,
      [⟨"update", some task_id, "success", origin,
        [("title", tLogged), ("priority", none)]⟩]⟩

/-- Operation `TaskStore.update_task`: a missing id logs `not_found` and
returns `False` before any field is examined. Otherwise the title, when
provided, is validated and applied to the task before the priority is even
looked at; a title that fails validation raises with nothing changed,
persisted or logged. -/
def TaskStore.update_task (s : TaskStore) (task_id : Int)
    (title priority : Option PyVal) (origin : Option String) :
    OpResult (Except String Bool) :=
  match dictGet s.tasks task_id with
  | none => ⟨s, .ok false, none, [⟨"update", some task_id, "not_found", origin, []⟩]⟩
  | some _ =>
    match title with
    | some .other => ⟨s, .error titleMsg, none, []⟩
    | some (.str t0) =>
      let t := pyStrip t0
      if t = "" then ⟨s, .error titleMsg, none, []⟩
      else
        let s1 : TaskStore := ⟨modifyTask s.tasks task_id (fun u => { u with title := t }), s.next_id⟩
        updatePriorityPhase s1 task_id (some t) priority origin
    | none => updatePriorityPhase s task_id none priority origin

/-- Operation `TaskStore.complete_task` from `services/storage.py`: a missing
id logs `not_found` and returns `False`; otherwise `task.is_done = True` is
set unconditionally (also when it already is `True`), then the snapshot is
persisted and success is logged. -/
def TaskStore.complete_task (s : TaskStore) (task_id : Int)
    (origin : Option String) : OpResult Bool :=
  match dictGet s.tasks task_id with
  | none => ⟨s, false, none, [⟨"complete", some task_id, "not_found", origin, []⟩]⟩
  | some _ =>
    let s2 : TaskStore := ⟨modifyTask s.tasks task_id (fun u => { u with is_done := true }), s.next_id⟩
    ⟨s2, true, some s2.save, [⟨"complete", some task_id, "success", origin, []⟩]⟩

/-- Operation `TaskStore.delete_task`: a missing id logs `not_found` and
returns `False` with no persist; otherwise the task is removed, the snapshot
is persisted and success is logged. -/
def TaskStore.delete_task (s : TaskStore) (task_id : Int)
    (origin : Option String) : OpResult Bool :=
  match dictGet s.tasks task_id with
  | none => ⟨s, false, none, [⟨"delete", some task_id, "not_found", origin, []⟩]⟩
  | some _ =>
    let s2 : TaskStore := ⟨dictRemove s.tasks task_id, s.next_id⟩
    ⟨s2, true, some s2.save, [⟨"delete", some task_id, "success", origin, []⟩]⟩

/-- Line of the audit-log file as `ActionLogger.tail` classifies it: either
its stripped text is non-empty and parses as JSON to a record `v`, or it is
blank after strip or fails `json.loads` and is skipped. -/
inductive LogLine where
  | line (v : JVal)
  | junk

/-- Read-back `ActionLogger.tail` from `services/action_log.py`: `limit <= 0`
returns the empty list at once; a missing file returns the empty list; else
the last `limit` raw lines (`lines[-limit:]`) are kept and the unparsable
ones among them are skipped. -/
def ActionLogger.tail (file : Option (List LogLine)) (limit : Int) : List JVal :=
  if limit ≤ 0 then []
  else
    match file with
    | none => []
    | some lines =>
      (lines.drop (lines.length - limit.toNat)).filterMap
        (fun l => match l with
          | .line v => some v
          | .junk => none)

/-- Public mutating operations of the storage engine, for stating properties
of operation sequences. -/
inductive Op where
  | create (title priority : PyVal) (origin : Option String)
  | update (task_id : Int) (title priority : Option PyVal) (origin : Option String)
  | complete (task_id : Int) (origin : Option String)
  | delete (task_id : Int) (origin : Option String)

/-- Store state after one operation (the state component of its outcome). -/
def stepStore (s : TaskStore) : Op → TaskStore
  | .create t p o => (s.create_task t p o).store
  | .update i t p o => (s.update_task i t p o).store
  | .complete i o => (s.complete_task i o).store
  | .delete i o => (s.delete_task i o).store

/-- Store state after a sequence of operations. -/
def runOps (s : TaskStore) (ops : List Op) : TaskStore :=
  ops.foldl stepStore s

/-- Task ids handed out by the successful `create` calls of an operation
sequence, in execution order. -/
def assignedIds (s : TaskStore) : List Op → List Int
  | [] => []
  | op :: ops =>
    (match op with
     | .create t p o =>
       match (s.create_task t p o).result with
       | .ok task => [task.id]
       | .error _ => []
     | _ => []) ++ assignedIds (stepStore s op) ops

/-- Title argument `create_task` rejects: a non-string, or a string that is
empty after stripping. -/
def badTitle : PyVal → Bool
  | .other => true
  | .str t => pyStrip t == ""

/-- Priority argument `create_task` rejects: a non-string, or a string whose
stripped form is not an allowed priority. -/
def badPriority : PyVal → Bool
  | .other => true
  | .str p => !allowed (pyStrip p)

/-- Store used in the refutation of the all-or-nothing update claim. -/
def c1Store : TaskStore := ⟨[⟨1, "Old", "low", false⟩], 2⟩

/-- Helper: mapping the identity-on-matching-tasks function over the task
dict leaves it unchanged. -/
theorem modifyTask_eq_self (tasks : List Task) (task_id : Int) (f : Task → Task)
    (h : ∀ u ∈ tasks, u.id = task_id → f u = u) :
    modifyTask tasks task_id f = tasks := by
  unfold modifyTask
  have h2 : ∀ u ∈ tasks, (if u.id == task_id then f u else u) = u := by
    intro u hu
    by_cases hc : u.id = task_id
    · simp [hc, h u hu hc]
    · simp [hc]
  calc tasks.map (fun u => if u.id == task_id then f u else u)
      = tasks.map id := List.map_congr_left h2
    _ = tasks := List.map_id tasks

/-- C10: update on an id that is not in the store returns the not-found
result `False` and logs `not_found`, without validating the provided title or
priority (they are arbitrary, possibly invalid, values here) and without
persisting: the existence check precedes field validation. -/
theorem update_task_not_found (s : TaskStore) (task_id : Int)
    (title priority : Option PyVal) (origin : Option String)
    (h : dictGet s.tasks task_id = none) :
    s.update_task task_id title priority origin =
      ⟨s, .ok false, none, [⟨"update", some task_id, "not_found", origin, []⟩]⟩ := by
  unfold TaskStore.update_task
  rw [h]

/-- Witness for `update_task_not_found` at a concrete store and invalid
field values. -/
theorem update_task_not_found_witness :
    dictGet (⟨[⟨3, "a", "low", false⟩], 4⟩ : TaskStore).tasks 7 = none ∧
    (⟨[⟨3, "a", "low", false⟩], 4⟩ : TaskStore).update_task 7 (some .other) (some (.str "")) none =
      ⟨⟨[⟨3, "a", "low", false⟩], 4⟩, .ok false, none,
        [⟨"update", some 7, "not_found", none, []⟩]⟩ :=
  ⟨by decide, update_task_not_found _ 7 (some .other) (some (.str "")) none (by decide)⟩

/-- C2: completing a task that is already completed (every task stored under
the id is done) returns success, leaves the store — in particular the task's
title and priority — unchanged, and still persists the snapshot and appends
the success audit record. -/
theorem complete_task_idempotent (s : TaskStore) (task_id : Int)
    (origin : Option String) (t : Task)
    (hmem : t ∈ s.tasks) (hid : t.id = task_id)
    (hdone : ∀ u ∈ s.tasks, u.id = task_id → u.is_done = true) :
    (s.complete_task task_id origin).result = true ∧
    (s.complete_task task_id origin).store = s ∧
    (s.complete_task task_id origin).saved = some (saveData s.tasks) ∧
    (s.complete_task task_id origin).logs =
      [⟨"complete", some task_id, "success", origin, []⟩] := by
  have hsome : (dictGet s.tasks task_id).isSome := by
    apply List.find?_isSome.mpr
    exact ⟨t, hmem, by simp [hid]⟩
  obtain ⟨u, hu⟩ := Option.isSome_iff_exists.mp hsome
  have hmod : modifyTask s.tasks task_id (fun v => { v with is_done := true }) = s.tasks := by
    apply modifyTask_eq_self
    intro v hv hvid
    have := hdone v hv hvid
    cases v
    simp_all
  simp [TaskStore.complete_task, hu, hmod, TaskStore.save, saveData]

/-- Witness for `complete_task_idempotent` on a store whose only task is
already done. -/
theorem complete_task_idempotent_witness :
    (⟨1, "a", "low", true⟩ : Task) ∈ ([⟨1, "a", "low", true⟩] : List Task) ∧
    (∀ u ∈ ([⟨1, "a", "low", true⟩] : List Task), u.id = 1 → u.is_done = true) ∧
    ((⟨[⟨1, "a", "low", true⟩], 2⟩ : TaskStore).complete_task 1 (some "cli")).result = true ∧
    ((⟨[⟨1, "a", "low", true⟩], 2⟩ : TaskStore).complete_task 1 (some "cli")).store =
      ⟨[⟨1, "a", "low", true⟩], 2⟩ ∧
    ((⟨[⟨1, "a", "low", true⟩], 2⟩ : TaskStore).complete_task 1 (some "cli")).saved =
      some (saveData [⟨1, "a", "low", true⟩]) ∧
    ((⟨[⟨1, "a", "low", true⟩], 2⟩ : TaskStore).complete_task 1 (some "cli")).logs =
      [⟨"complete", some 1, "success", some "cli", []⟩] := by
  refine ⟨by decide, by decide, ?_⟩
  exact complete_task_idempotent ⟨[⟨1, "a", "low", true⟩], 2⟩ 1 (some "cli")
    ⟨1, "a", "low", true⟩ (by decide) (by decide) (by decide)

/-- C5: a create call whose title or priority fails validation returns a
validation error naming an offending field, leaves the store (tasks and
next-ID counter) unchanged, persists nothing and logs nothing; since the
counter does not move, the id the failed call would have taken goes to the
next valid create. -/
theorem create_task_validation_failure (s : TaskStore) (title priority : PyVal)
    (origin : Option String)
    (h : badTitle title = true ∨ badPriority priority = true) :
    (s.create_task title priority origin).store = s ∧
    (s.create_task title priority origin).saved = none ∧
    (s.create_task title priority origin).logs = [] ∧
    ((badTitle title = true ∧
        (s.create_task title priority origin).result = .error titleMsg) ∨
     (badPriority priority = true ∧
        (s.create_task title priority origin).result = .error priorityMsg)) := by
  cases title with
  | other =>
    exact ⟨rfl, rfl, rfl, Or.inl ⟨rfl, rfl⟩⟩
  | str t0 =>
    cases priority with
    | other =>
      exact ⟨rfl, rfl, rfl, Or.inr ⟨rfl, rfl⟩⟩
    | str p0 =>
      by_cases ht : pyStrip t0 = ""
      · refine ⟨?_, ?_, ?_, Or.inl ⟨by simp [badTitle, ht], ?_⟩⟩ <;>
          simp [TaskStore.create_task, ht]
      · by_cases hp : allowed (pyStrip p0)
        · exfalso
          rcases h with h | h
          · simp [badTitle, ht] at h
          · simp [badPriority, hp] at h
        · refine ⟨?_, ?_, ?_, Or.inr ⟨by simp [badPriority, hp], ?_⟩⟩ <;>
            simp [TaskStore.create_task, ht, hp]

/-- Witness for `create_task_validation_failure`: a whitespace-only title. -/
theorem create_task_validation_failure_witness :
    (badTitle (.str "  ") = true ∨ badPriority (.str "high") = true) ∧
    ((⟨[], 1⟩ : TaskStore).create_task (.str "  ") (.str "high") none).store = ⟨[], 1⟩ ∧
    ((⟨[], 1⟩ : TaskStore).create_task (.str "  ") (.str "high") none).saved = none ∧
    ((⟨[], 1⟩ : TaskStore).create_task (.str "  ") (.str "high") none).logs = [] ∧
    ((badTitle (.str "  ") = true ∧
        ((⟨[], 1⟩ : TaskStore).create_task (.str "  ") (.str "high") none).result = .error titleMsg) ∨
     (badPriority (.str "high") = true ∧
        ((⟨[], 1⟩ : TaskStore).create_task (.str "  ") (.str "high") none).result = .error priorityMsg)) :=
  ⟨Or.inl (by decide),
   create_task_validation_failure ⟨[], 1⟩ (.str "  ") (.str "high") none (Or.inl (by decide))⟩

/-- C3 as stated is false: with a one-line log file holding one parsed
record, tail(0) returns the empty sequence, while clamping 0 to 1 would
return that single most recent record (as tail(1) does). -/
theorem tail_nonpos_counterexample :
    ActionLogger.tail (some [LogLine.line (.str "r1")]) 0 = [] ∧
    ActionLogger.tail (some [LogLine.line (.str "r1")]) 1 = [JVal.str "r1"] ∧
    ([] : List JVal) ≠ [JVal.str "r1"] :=
  ⟨rfl, rfl, by simp⟩

/-- C3 amended: tail with any n that is 0 or negative returns the empty
sequence regardless of the file contents (n is not clamped to 1). -/
theorem tail_nonpos_empty (file : Option (List LogLine)) (n : Int) (h : n ≤ 0) :
    ActionLogger.tail file n = [] := by
  unfold ActionLogger.tail
  rw [if_pos h]

/-- Witness for `tail_nonpos_empty` on a non-empty file and n = 0. -/
theorem tail_nonpos_empty_witness :
    ((0 : Int) ≤ 0) ∧
    ActionLogger.tail (some [LogLine.line (.str "r2")]) 0 = [] :=
  ⟨by decide, tail_nonpos_empty (some [LogLine.line (.str "r2")]) 0 (by decide)⟩

/-- C4 as stated is false: on a file whose lines are a parseable record, an
unparsable line and a parseable record, tail(2) keeps the last 2 raw lines
first and only then skips the unparsable one, so it returns a single record
even though an older parseable record exists: the count is reduced below
n. -/
theorem tail_skips_reduce_count_counterexample :
    ActionLogger.tail
      (some [LogLine.line (.str "a"), LogLine.junk, LogLine.line (.str "b")]) 2 =
      [JVal.str "b"] ∧
    (ActionLogger.tail
      (some [LogLine.line (.str "a"), LogLine.junk, LogLine.line (.str "b")]) 2).length < 2 := by
  have h : ActionLogger.tail
      (some [LogLine.line (.str "a"), LogLine.junk, LogLine.line (.str "b")]) 2 =
      [JVal.str "b"] := rfl
  exact ⟨h, by rw [h]; decide⟩

/-- C4 amended: tail(n) for n >= 1 returns the successfully parsed records
among the last n raw lines of the file, in chronological order; when every
line parses this is exactly the last min(n, length) records, so 5 successful
mutations followed by getLogs(3) yield the 3 most recent audit records in
order, but an unparsable line inside the window does reduce the count. -/
theorem tail_window (rs : List JVal) (n : Int) (h : 1 ≤ n) :
    ActionLogger.tail (some (rs.map LogLine.line)) n =
      rs.drop (rs.length - n.toNat) := by
  have hn : ¬ n ≤ 0 := by omega
  simp only [ActionLogger.tail, if_neg hn]
  rw [List.length_map, ← List.map_drop, List.filterMap_map]
  have hcomp : ((fun l => match l with
      | LogLine.line v => some v
      | LogLine.junk => none) ∘ LogLine.line) = some := rfl
  rw [hcomp, List.filterMap_some]

/-- Witness for `tail_window`: five chronological records, limit 3. -/
theorem tail_window_witness :
    ((1 : Int) ≤ 3) ∧
    ActionLogger.tail
      (some ([JVal.str "m1", JVal.str "m2", JVal.str "m3", JVal.str "m4",
              JVal.str "m5"].map LogLine.line)) 3 =
      [JVal.str "m1", JVal.str "m2", JVal.str "m3", JVal.str "m4",
       JVal.str "m5"].drop
        ([JVal.str "m1", JVal.str "m2", JVal.str "m3", JVal.str "m4",
          JVal.str "m5"].length - (3 : Int).toNat) :=
  ⟨by decide,
   tail_window [JVal.str "m1", JVal.str "m2", JVal.str "m3", JVal.str "m4",
                JVal.str "m5"] 3 (by decide)⟩

/-- C1 as stated is false: on a store holding task 1 with title "Old",
update(1, "New", "urgent") fails priority validation, yet the task's title
has already been changed to "New" — the provided fields are not applied
all-or-nothing. -/
theorem update_partial_application_counterexample :
    (c1Store.update_task 1 (some (.str "New")) (some (.str "urgent")) none).result =
      .error priorityMsg ∧
    (c1Store.update_task 1 (some (.str "New")) (some (.str "urgent")) none).store.tasks =
      [⟨1, "New", "low", false⟩] ∧
    c1Store.tasks = [⟨1, "Old", "low", false⟩] :=
  ⟨rfl, rfl, rfl⟩

/-- C1 amended: when update on an existing task is given a title that passes
validation together with a priority that fails it, the new (stripped) title
has already been applied to the task when the validation error is raised; the
priority is left unchanged and nothing is persisted or logged by the failed
call. -/
theorem update_title_applied_on_priority_failure
    (s : TaskStore) (task_id : Int) (t0 : String) (pv : PyVal)
    (origin : Option String) (t : Task)
    (hget : dictGet s.tasks task_id = some t)
    (ht : ¬ pyStrip t0 = "") (hp : badPriority pv = true) :
    s.update_task task_id (some (.str t0)) (some pv) origin =
      ⟨⟨modifyTask s.tasks task_id (fun u => { u with title := pyStrip t0 }), s.next_id⟩,
       .error priorityMsg, none, []⟩ := by
  unfold TaskStore.update_task
  rw [hget]
  simp only [if_neg ht]
  cases pv with
  | other => rfl
  | str p0 =>
    have hp' : allowed (pyStrip p0) = false := by
      simpa [badPriority] using hp
    simp [updatePriorityPhase, hp']

/-- Witness for `update_title_applied_on_priority_failure` at the concrete
counterexample store. -/
theorem update_title_applied_on_priority_failure_witness :
    dictGet c1Store.tasks 1 = some ⟨1, "Old", "low", false⟩ ∧
    (¬ pyStrip "New" = "") ∧
    badPriority (.str "urgent") = true ∧
    c1Store.update_task 1 (some (.str "New")) (some (.str "urgent")) none =
      ⟨⟨modifyTask c1Store.tasks 1 (fun u => { u with title := pyStrip "New" }), c1Store.next_id⟩,
       .error priorityMsg, none, []⟩ :=
  ⟨by decide, by decide, by decide,
   update_title_applied_on_priority_failure c1Store 1 "New" (.str "urgent") none
     ⟨1, "Old", "low", false⟩ (by decide) (by decide) (by decide)⟩

/-- Store state of a freshly constructed engine (`__init__`): no tasks,
counter 1, worked on by `load` at startup. -/
def freshStore : TaskStore := ⟨[], 1⟩

/-- Helper: the loading loop leaves its accumulator unchanged on an item that
is not a dict or whose record is malformed. -/
theorem loadStep_skip (acc : List Task × Int) (bad : JVal)
    (hbad : ∀ fields, bad = JVal.obj fields → Task.from_dict fields = none) :
    loadStep acc bad = acc := by
  cases bad with
  | obj fields => simp [loadStep, hbad fields rfl]
  | null => rfl
  | bool b => rfl
  | num n => rfl
  | str s => rfl
  | arr items => rfl

/-- C7: loading a fresh store from an absent file, from a present file whose
text is empty or unparsable, or from a parsed document that is not an array,
completes and leaves the empty task collection with counter 1; and inside a
parseable array an individually malformed record is simply skipped, wherever
it sits, without aborting the load. -/
theorem load_corruption_tolerant
    (v : JVal) (hv : ∀ items, v ≠ JVal.arr items)
    (bad : JVal) (hbad : ∀ fields, bad = JVal.obj fields → Task.from_dict fields = none) :
    freshStore.load .absent = freshStore ∧
    freshStore.load .unparsable = freshStore ∧
    freshStore.load (.parsed v) = freshStore ∧
    (∀ xs ys : List JVal,
      freshStore.load (.parsed (.arr (xs ++ bad :: ys))) =
        freshStore.load (.parsed (.arr (xs ++ ys)))) := by
  refine ⟨rfl, rfl, ?_, ?_⟩
  · cases v with
    | arr items => exact absurd rfl (hv items)
    | null => rfl
    | bool b => rfl
    | num n => rfl
    | str s => rfl
    | obj fields => rfl
  · intro xs ys
    simp only [TaskStore.load, List.foldl_append, List.foldl_cons,
      loadStep_skip _ bad hbad]

/-- Witness for `load_corruption_tolerant`: a non-array document (an object)
and a malformed in-array record (a bare number), exercised on a concrete
array around the bad record. -/
theorem load_corruption_tolerant_witness :
    (∀ items, JVal.obj [] ≠ JVal.arr items) ∧
    (∀ fields, JVal.num 3 = JVal.obj fields → Task.from_dict fields = none) ∧
    freshStore.load .absent = freshStore ∧
    freshStore.load .unparsable = freshStore ∧
    freshStore.load (.parsed (.obj [])) = freshStore ∧
    (∀ xs ys : List JVal,
      freshStore.load (.parsed (.arr (xs ++ JVal.num 3 :: ys))) =
        freshStore.load (.parsed (.arr (xs ++ ys)))) :=
  by
  constructor
  · intro items h
    exact nomatch h
  constructor
  · intro fields h
    exact nomatch h
  exact load_corruption_tolerant (JVal.obj []) (fun _ h => nomatch h)
    (JVal.num 3) (fun _ h => nomatch h)

/-- Helper: inserting into the sorted list is a permutation of consing. -/
theorem insertById_perm (t : Task) (ts : List Task) :
    (insertById t ts).Perm (t :: ts) := by
  induction ts with
  | nil => exact List.Perm.refl _
  | cons u us ih =>
    unfold insertById
    split
    · exact List.Perm.refl _
    · exact List.Perm.trans (List.Perm.cons u ih) (List.Perm.swap t u us)

/-- Helper: the sorted task list is a permutation of the original. -/
theorem sortById_perm (ts : List Task) : (sortById ts).Perm ts := by
  induction ts with
  | nil => exact List.Perm.refl _
  | cons t rest ih =>
    exact List.Perm.trans (insertById_perm t (sortById rest)) (List.Perm.cons t ih)

/-- Helper: deserializing a serialized task gives the task back. -/
theorem from_dict_to_dict (t : Task) :
    Task.from_dict [("title", .str t.title), ("id", .num t.id),
        ("priority", .str t.priority), ("isDone", .bool t.is_done)] = some t := by
  cases t
  rfl

/-- Helper: one loading-loop step on a serialized task stores that task. -/
theorem loadStep_to_dict (acc : List Task × Int) (t : Task) :
    loadStep acc (Task.to_dict t) =
      (dictInsert acc.1 t, if t.id > acc.2 then t.id else acc.2) := by
  simp [loadStep, Task.to_dict, from_dict_to_dict t]

/-- Helper: inserting a task whose id is fresh appends it. -/
theorem dictInsert_append (ts : List Task) (t : Task)
    (h : ∀ u ∈ ts, ¬ u.id = t.id) : dictInsert ts t = ts ++ [t] := by
  unfold dictInsert
  have hany : ts.any (fun u => u.id == t.id) = false := by
    rw [List.any_eq_false]
    intro u hu
    simp [h u hu]
  rw [hany]
  simp

/-- Helper: folding the loading loop over serialized tasks with pairwise
distinct ids, starting from an accumulator disjoint from them, appends
exactly those tasks and computes the maximal id. -/
theorem load_fold_map_to_dict (ts : List Task) :
    ∀ acc : List Task × Int,
      (∀ u ∈ acc.1, ∀ v ∈ ts, ¬ u.id = v.id) →
      (ts.map Task.id).Nodup →
      (ts.map Task.to_dict).foldl loadStep acc =
        (acc.1 ++ ts, ts.foldl (fun m t => if t.id > m then t.id else m) acc.2) := by
  induction ts with
  | nil => intro acc _ _; simp
  | cons t rest ih =>
    intro acc hdis hnd
    obtain ⟨hfresh, hndrest⟩ :
        (∀ x ∈ rest, ¬ x.id = t.id) ∧ (rest.map Task.id).Nodup := by
      simpa using hnd
    have hnotin : ∀ v ∈ rest, ¬ t.id = v.id :=
      fun v hv heq => hfresh v hv heq.symm
    rw [List.map_cons, List.foldl_cons, loadStep_to_dict,
      dictInsert_append _ _ (fun u hu => hdis u hu t (List.mem_cons_self t rest))]
    rw [ih (acc.1 ++ [t], if t.id > acc.2 then t.id else acc.2) ?_ hndrest]
    · simp [List.foldl_cons]
    · intro u hu v hv
      rcases List.mem_append.mp hu with h1 | h1
      · exact hdis u h1 v (List.mem_cons_of_mem t hv)
      · rw [List.mem_singleton.mp h1]
        exact hnotin v hv

/-- Helper: the maximal-id fold dominates its initial value. -/
theorem le_foldl_maxId (ts : List Task) :
    ∀ a : Int, a ≤ ts.foldl (fun m t => if t.id > m then t.id else m) a := by
  induction ts with
  | nil => intro a; simp
  | cons t rest ih =>
    intro a
    rw [List.foldl_cons]
    have h1 := ih (if t.id > a then t.id else a)
    have h2 : a ≤ (if t.id > a then t.id else a) := by split <;> omega
    omega

/-- Helper: the maximal-id fold dominates the id of every listed task. -/
theorem mem_le_foldl_maxId (ts : List Task) (t : Task) (hm : t ∈ ts) :
    ∀ a : Int, t.id ≤ ts.foldl (fun m u => if u.id > m then u.id else m) a := by
  induction ts with
  | nil => cases hm
  | cons u rest ih =>
    intro a
    rw [List.foldl_cons]
    rcases List.mem_cons.mp hm with h1 | h1
    · have h2 := le_foldl_maxId rest (if u.id > a then u.id else a)
      subst h1
      have h3 : t.id ≤ (if t.id > a then t.id else a) := by split <;> omega
      omega
    · exact ih h1 _

/-- C6: persisting a store whose tasks have pairwise distinct ids with save
and loading the produced snapshot into a fresh store yields the same task
collection (a permutation, so the same ids, titles, priorities and
completion flags) and a next-ID counter strictly greater than every existing
id. -/
theorem save_load_roundtrip (s : TaskStore)
    (h : (s.tasks.map Task.id).Nodup) :
    ((freshStore.load (.parsed s.save)).tasks).Perm s.tasks ∧
    ∀ t ∈ s.tasks, t.id + 1 ≤ (freshStore.load (.parsed s.save)).next_id := by
  have hperm := sortById_perm s.tasks
  have hnd : ((sortById s.tasks).map Task.id).Nodup :=
    ((hperm.map Task.id).nodup_iff).mpr h
  have hload : freshStore.load (.parsed s.save) =
      ⟨sortById s.tasks,
       (sortById s.tasks).foldl (fun m t => if t.id > m then t.id else m) 0 + 1⟩ := by
    show TaskStore.load _ (.parsed (.arr ((sortById s.tasks).map Task.to_dict))) = _
    simp only [TaskStore.load]
    rw [load_fold_map_to_dict (sortById s.tasks) ([], 0) (by simp) hnd]
    simp
  rw [hload]
  constructor
  · exact hperm
  · intro t ht
    have ht' : t ∈ sortById s.tasks := hperm.mem_iff.mpr ht
    have := mem_le_foldl_maxId _ t ht' 0
    simp only []
    omega

/-- Witness for `save_load_roundtrip` on a two-task store. -/
theorem save_load_roundtrip_witness :
    ((⟨[⟨2, "b", "high", true⟩, ⟨1, "a", "low", false⟩], 7⟩ : TaskStore).tasks.map
        Task.id).Nodup ∧
    ((freshStore.load
        (.parsed (⟨[⟨2, "b", "high", true⟩, ⟨1, "a", "low", false⟩], 7⟩ : TaskStore).save)).tasks).Perm
      (⟨[⟨2, "b", "high", true⟩, ⟨1, "a", "low", false⟩], 7⟩ : TaskStore).tasks ∧
    ∀ t ∈ (⟨[⟨2, "b", "high", true⟩, ⟨1, "a", "low", false⟩], 7⟩ : TaskStore).tasks,
      t.id + 1 ≤
        (freshStore.load
          (.parsed (⟨[⟨2, "b", "high", true⟩, ⟨1, "a", "low", false⟩], 7⟩ : TaskStore).save)).next_id := by
  constructor
  · decide
  exact save_load_roundtrip ⟨[⟨2, "b", "high", true⟩, ⟨1, "a", "low", false⟩], 7⟩ (by decide)

/-- Helper: membership in the dict after an insert. -/
theorem mem_dictInsert {ts : List Task} {t u : Task} (h : u ∈ dictInsert ts t) :
    u = t ∨ u ∈ ts := by
  unfold dictInsert at h
  split at h
  · rcases List.mem_map.mp h with ⟨v, hv, heq⟩
    by_cases hc : v.id = t.id
    · left
      rw [← heq]
      simp [hc]
    · right
      have : u = v := by rw [← heq]; simp [hc]
      rw [this]
      exact hv
  · rcases List.mem_append.mp h with h1 | h1
    · right; exact h1
    · left; exact List.mem_singleton.mp h1

/-- Helper: membership in the dict after an in-place field mutation. -/
theorem mem_modifyTask {ts : List Task} {i : Int} {f : Task → Task} {u : Task}
    (h : u ∈ modifyTask ts i f) : ∃ v ∈ ts, u = v ∨ (v.id = i ∧ u = f v) := by
  unfold modifyTask at h
  rcases List.mem_map.mp h with ⟨v, hv, heq⟩
  by_cases hc : v.id = i
  · exact ⟨v, hv, Or.inr ⟨hc, by rw [← heq]; simp [hc]⟩⟩
  · exact ⟨v, hv, Or.inl (by rw [← heq]; simp [hc])⟩

/-- Helper: the priority phase of update either leaves the store alone (on a
raised validation error or an absent priority before persisting) or applies
an id- and flag-preserving priority change; the counter never moves. -/
theorem updatePriorityPhase_store (s1 : TaskStore) (task_id : Int)
    (tl : Option String) (p : Option PyVal) (o : Option String) :
    (updatePriorityPhase s1 task_id tl p o).store = s1 ∨
    ∃ pr : String, (updatePriorityPhase s1 task_id tl p o).store =
      ⟨modifyTask s1.tasks task_id (fun u => { u with priority := pr }), s1.next_id⟩ := by
  cases p with
  | none => exact Or.inl rfl
  | some pv =>
    cases pv with
    | other => exact Or.inl rfl
    | str p0 =>
      by_cases hp : allowed (pyStrip p0)
      · right
        exact ⟨pyStrip p0, by simp [updatePriorityPhase, hp]⟩
      · left
        simp [updatePriorityPhase, hp]

/-- Helper: the priority phase never changes the next-ID counter. -/
theorem updatePriorityPhase_next_id (s1 : TaskStore) (task_id : Int)
    (tl : Option String) (p : Option PyVal) (o : Option String) :
    (updatePriorityPhase s1 task_id tl p o).store.next_id = s1.next_id := by
  rcases updatePriorityPhase_store s1 task_id tl p o with h | ⟨pr, h⟩ <;> rw [h]

/-- Helper: every task after the priority phase corresponds to a task before
it with the same id and completion flag. -/
theorem updatePriorityPhase_tasks (s1 : TaskStore) (task_id : Int)
    (tl : Option String) (p : Option PyVal) (o : Option String) :
    ∀ u ∈ (updatePriorityPhase s1 task_id tl p o).store.tasks,
      ∃ v ∈ s1.tasks, u.id = v.id ∧ u.is_done = v.is_done := by
  rcases updatePriorityPhase_store s1 task_id tl p o with h | ⟨pr, h⟩ <;> rw [h]
  · intro u hu
    exact ⟨u, hu, rfl, rfl⟩
  · intro u hu
    rcases mem_modifyTask hu with ⟨v, hv, h1 | ⟨hvi, h1⟩⟩
    · exact ⟨v, hv, by rw [h1], by rw [h1]⟩
    · exact ⟨v, hv, by rw [h1], by rw [h1]⟩

/-- Helper: update never changes the next-ID counter. -/
theorem update_task_next_id (s : TaskStore) (i : Int) (t p : Option PyVal)
    (o : Option String) : (s.update_task i t p o).store.next_id = s.next_id := by
  unfold TaskStore.update_task
  cases hd : dictGet s.tasks i with
  | none => rfl
  | some w =>
    cases t with
    | none => exact updatePriorityPhase_next_id s i none p o
    | some tv =>
      cases tv with
      | other => rfl
      | str t0 =>
        dsimp only
        split
        · rfl
        · exact updatePriorityPhase_next_id _ i (some (pyStrip t0)) p o

/-- Helper: every task after an update corresponds to a task before it with
the same id and completion flag (update never touches `is_done`). -/
theorem update_task_tasks (s : TaskStore) (i : Int) (t p : Option PyVal)
    (o : Option String) :
    ∀ u ∈ (s.update_task i t p o).store.tasks,
      ∃ v ∈ s.tasks, u.id = v.id ∧ u.is_done = v.is_done := by
  unfold TaskStore.update_task
  cases hd : dictGet s.tasks i with
  | none =>
    intro u hu
    exact ⟨u, hu, rfl, rfl⟩
  | some w =>
    cases t with
    | none => exact updatePriorityPhase_tasks s i none p o
    | some tv =>
      cases tv with
      | other =>
        intro u hu
        exact ⟨u, hu, rfl, rfl⟩
      | str t0 =>
        dsimp only
        split
        · intro u hu
          exact ⟨u, hu, rfl, rfl⟩
        · intro u hu
          rcases updatePriorityPhase_tasks
              ⟨modifyTask s.tasks i (fun v => { v with title := pyStrip t0 }), s.next_id⟩
              i (some (pyStrip t0)) p o u hu with ⟨v, hv, hid, hdone⟩
          rcases mem_modifyTask hv with ⟨w2, hw2, h1 | ⟨_, h1⟩⟩
          · exact ⟨w2, hw2, by rw [hid, h1], by rw [hdone, h1]⟩
          · exact ⟨w2, hw2, by rw [hid, h1], by rw [hdone, h1]⟩

/-- Helper: complete never changes the next-ID counter. -/
theorem complete_task_next_id (s : TaskStore) (i : Int) (o : Option String) :
    (s.complete_task i o).store.next_id = s.next_id := by
  unfold TaskStore.complete_task
  cases hd : dictGet s.tasks i with
  | none => rfl
  | some w => rfl

/-- Helper: every task after a complete corresponds to a task before it with
the same id, and a completed task stays completed. -/
theorem complete_task_tasks (s : TaskStore) (i : Int) (o : Option String) :
    ∀ u ∈ (s.complete_task i o).store.tasks,
      ∃ v ∈ s.tasks, u.id = v.id ∧ (v.is_done = true → u.is_done = true) := by
  unfold TaskStore.complete_task
  cases hd : dictGet s.tasks i with
  | none =>
    intro u hu
    exact ⟨u, hu, rfl, fun h => h⟩
  | some w =>
    intro u hu
    rcases mem_modifyTask hu with ⟨v, hv, h1 | ⟨_, h1⟩⟩
    · exact ⟨v, hv, by rw [h1], fun h => by rw [h1]; exact h⟩
    · exact ⟨v, hv, by rw [h1], fun _ => by rw [h1]⟩

/-- Helper: delete never changes the next-ID counter. -/
theorem delete_task_next_id (s : TaskStore) (i : Int) (o : Option String) :
    (s.delete_task i o).store.next_id = s.next_id := by
  unfold TaskStore.delete_task
  cases hd : dictGet s.tasks i with
  | none => rfl
  | some w => rfl

/-- Helper: delete only removes tasks. -/
theorem delete_task_tasks (s : TaskStore) (i : Int) (o : Option String) :
    ∀ u ∈ (s.delete_task i o).store.tasks, u ∈ s.tasks := by
  unfold TaskStore.delete_task
  cases hd : dictGet s.tasks i with
  | none =>
    intro u hu
    exact hu
  | some w =>
    intro u hu
    exact List.mem_of_mem_filter hu

/-- Helper: a create call either fails validation, leaving the store
untouched and returning an error, or returns a fresh not-done task carrying
the current counter value as its id, inserts it and bumps the counter. -/
theorem create_task_spec (s : TaskStore) (t p : PyVal) (o : Option String) :
    ((s.create_task t p o).store = s ∧
      ∀ task, ¬ (s.create_task t p o).result = .ok task) ∨
    (∃ task : Task, (s.create_task t p o).result = .ok task ∧
      task.id = s.next_id ∧ task.is_done = false ∧
      (s.create_task t p o).store.tasks = dictInsert s.tasks task ∧
      (s.create_task t p o).store.next_id = s.next_id + 1) := by
  cases t with
  | other => exact Or.inl ⟨rfl, fun task h => nomatch h⟩
  | str t0 =>
    cases p with
    | other => exact Or.inl ⟨rfl, fun task h => nomatch h⟩
    | str p0 =>
      unfold TaskStore.create_task
      dsimp only
      split
      · exact Or.inl ⟨rfl, fun task h => nomatch h⟩
      · split
        · exact Or.inl ⟨rfl, fun task h => nomatch h⟩
        · exact Or.inr ⟨⟨s.next_id, pyStrip t0, pyStrip p0, false⟩,
            rfl, rfl, rfl, rfl, rfl⟩

/-- Helper: one operation either keeps the counter or bumps it by one, and
every task afterwards either descends from a task before (same id, with a
`true` completion flag preserved) or is the freshly created not-done task
carrying the old counter value while the counter was bumped. -/
theorem stepStore_facts (s : TaskStore) (op : Op) :
    ((stepStore s op).next_id = s.next_id ∨
      (stepStore s op).next_id = s.next_id + 1) ∧
    ∀ u ∈ (stepStore s op).tasks,
      (∃ v ∈ s.tasks, u.id = v.id ∧ (v.is_done = true → u.is_done = true)) ∨
      (u.id = s.next_id ∧ (stepStore s op).next_id = s.next_id + 1 ∧
        u.is_done = false) := by
  cases op with
  | create t p o =>
    have hstep : stepStore s (.create t p o) = (s.create_task t p o).store := rfl
    rcases create_task_spec s t p o with ⟨hs, _⟩ | ⟨task, _, hid, hdone, htasks, hnext⟩
    · rw [hstep, hs]
      exact ⟨Or.inl rfl, fun u hu => Or.inl ⟨u, hu, rfl, id⟩⟩
    · rw [hstep]
      refine ⟨Or.inr hnext, fun u hu => ?_⟩
      rw [htasks] at hu
      rcases mem_dictInsert hu with h1 | h1
      · right
        rw [h1]
        exact ⟨hid, hnext, hdone⟩
      · exact Or.inl ⟨u, h1, rfl, id⟩
  | update i t p o =>
    refine ⟨Or.inl (update_task_next_id s i t p o), fun u hu => Or.inl ?_⟩
    rcases update_task_tasks s i t p o u hu with ⟨v, hv, hid, hdone⟩
    exact ⟨v, hv, hid, fun h => hdone.trans h⟩
  | complete i o =>
    refine ⟨Or.inl (complete_task_next_id s i o), fun u hu => Or.inl ?_⟩
    exact complete_task_tasks s i o u hu
  | delete i o =>
    refine ⟨Or.inl (delete_task_next_id s i o), fun u hu => Or.inl ?_⟩
    exact ⟨u, delete_task_tasks s i o u hu, rfl, id⟩

/-- Helper: the counter never decreases along a sequence of operations. -/
theorem runOps_next_id_mono (ops : List Op) :
    ∀ s : TaskStore, s.next_id ≤ (runOps s ops).next_id := by
  induction ops with
  | nil =>
    intro s
    exact le_refl _
  | cons op rest ih =>
    intro s
    have h1 : s.next_id ≤ (stepStore s op).next_id := by
      rcases (stepStore_facts s op).1 with h | h <;> omega
    have h2 := ih (stepStore s op)
    have h3 : runOps s (op :: rest) = runOps (stepStore s op) rest := rfl
    rw [h3]
    omega

/-- Helper: the ids a successful create prefixes to the assigned-ids list. -/
theorem assignedIds_cons_create_ok (s : TaskStore) (t p : PyVal)
    (o : Option String) (rest : List Op) (task : Task)
    (h : (s.create_task t p o).result = .ok task) :
    assignedIds s (.create t p o :: rest) =
      task.id :: assignedIds (stepStore s (.create t p o)) rest := by
  simp [assignedIds, h]

/-- Helper: a failed create assigns no id. -/
theorem assignedIds_cons_create_err (s : TaskStore) (t p : PyVal)
    (o : Option String) (rest : List Op) (m : String)
    (h : (s.create_task t p o).result = .error m) :
    assignedIds s (.create t p o :: rest) =
      assignedIds (stepStore s (.create t p o)) rest := by
  simp [assignedIds, h]

/-- C8: along every sequence of operations, the ids assigned by successful
creates are strictly increasing (hence pairwise distinct, and an id freed by
a delete is never handed out again), each of them is at least the starting
counter value, and the final next-ID counter is strictly greater than every
id assigned during the sequence. -/
theorem assigned_ids_monotone (s : TaskStore) (ops : List Op) :
    List.Pairwise (· < ·) (assignedIds s ops) ∧
    ∀ i ∈ assignedIds s ops, s.next_id ≤ i ∧ i < (runOps s ops).next_id := by
  induction ops generalizing s with
  | nil =>
    exact ⟨List.Pairwise.nil, by simp [assignedIds]⟩
  | cons op rest ih =>
    have hrun : runOps s (op :: rest) = runOps (stepStore s op) rest := rfl
    obtain ⟨ihp, ihb⟩ := ih (stepStore s op)
    have hkeep :
        (stepStore s op).next_id = s.next_id ∨
        (stepStore s op).next_id = s.next_id + 1 := (stepStore_facts s op).1
    cases op with
    | create t p o =>
      rcases create_task_spec s t p o with ⟨hs, hnone⟩ |
          ⟨task, hok, hid, _, _, hnext⟩
      · obtain ⟨m, herr⟩ : ∃ m, (s.create_task t p o).result = .error m := by
          cases hr : (s.create_task t p o).result with
          | ok task => exact absurd hr (hnone task)
          | error m => exact ⟨m, rfl⟩
        have hstep : stepStore s (.create t p o) = s := hs
        rw [assignedIds_cons_create_err s t p o rest m herr, hrun]
        refine ⟨ihp, fun j hj => ?_⟩
        obtain ⟨h1, h2⟩ := ihb j hj
        rw [hstep] at h1
        exact ⟨h1, h2⟩
      · have hnext' : (stepStore s (.create t p o)).next_id = s.next_id + 1 := hnext
        rw [assignedIds_cons_create_ok s t p o rest task hok, hrun]
        constructor
        · refine List.pairwise_cons.mpr ⟨fun j hj => ?_, ihp⟩
          have := (ihb j hj).1
          omega
        · intro j hj
          rcases List.mem_cons.mp hj with h1 | h1
          · subst h1
            have h2 := runOps_next_id_mono rest (stepStore s (.create t p o))
            constructor
            · omega
            · omega
          · obtain ⟨hb1, hb2⟩ := ihb j h1
            exact ⟨by omega, hb2⟩
    | update i t p o =>
      have ha : assignedIds s (.update i t p o :: rest) =
          assignedIds (stepStore s (.update i t p o)) rest := by
        simp [assignedIds]
      have hnext : (stepStore s (.update i t p o)).next_id = s.next_id :=
        update_task_next_id s i t p o
      rw [ha, hrun]
      exact ⟨ihp, fun j hj => ⟨by have := (ihb j hj).1; omega, (ihb j hj).2⟩⟩
    | complete i o =>
      have ha : assignedIds s (.complete i o :: rest) =
          assignedIds (stepStore s (.complete i o)) rest := by
        simp [assignedIds]
      have hnext : (stepStore s (.complete i o)).next_id = s.next_id :=
        complete_task_next_id s i o
      rw [ha, hrun]
      exact ⟨ihp, fun j hj => ⟨by have := (ihb j hj).1; omega, (ihb j hj).2⟩⟩
    | delete i o =>
      have ha : assignedIds s (.delete i o :: rest) =
          assignedIds (stepStore s (.delete i o)) rest := by
        simp [assignedIds]
      have hnext : (stepStore s (.delete i o)).next_id = s.next_id :=
        delete_task_next_id s i o
      rw [ha, hrun]
      exact ⟨ihp, fun j hj => ⟨by have := (ihb j hj).1; omega, (ihb j hj).2⟩⟩

/-- Store invariant maintained by the engine: every stored id is below the
next-ID counter (so a fresh id never collides), and stored ids are pairwise
distinct (the Python dict cannot hold a duplicated key). -/
def storeInv (s : TaskStore) : Prop :=
  (∀ v ∈ s.tasks, v.id < s.next_id) ∧ (s.tasks.map Task.id).Nodup

/-- Helper: one operation preserves doneness of every task stored under an
id below the counter. -/
theorem stepStore_done (s : TaskStore) (op : Op) (i : Int)
    (hi : i < s.next_id)
    (hdone : ∀ v ∈ s.tasks, v.id = i → v.is_done = true) :
    ∀ u ∈ (stepStore s op).tasks, u.id = i → u.is_done = true := by
  obtain ⟨_, htasks⟩ := stepStore_facts s op
  intro u hu hui
  rcases htasks u hu with ⟨v, hv, hid, himp⟩ | ⟨hid, _, _⟩
  · have hvi : v.id = i := by rw [← hid]; exact hui
    exact himp (hdone v hv hvi)
  · omega

/-- Helper: doneness of every task stored under a below-counter id is
preserved along a whole operation sequence. -/
theorem runOps_done (ops : List Op) :
    ∀ (s : TaskStore) (i : Int), i < s.next_id →
      (∀ v ∈ s.tasks, v.id = i → v.is_done = true) →
      ∀ u ∈ (runOps s ops).tasks, u.id = i → u.is_done = true := by
  induction ops with
  | nil =>
    intro s i _ hd
    exact hd
  | cons op rest ih =>
    intro s i hi hd
    have hstep : runOps s (op :: rest) = runOps (stepStore s op) rest := rfl
    rw [hstep]
    apply ih (stepStore s op) i
    · have := (stepStore_facts s op).1
      rcases this with h | h <;> omega
    · exact stepStore_done s op i hi hd

/-- C9: starting from a store satisfying the engine invariant, a task whose
completion flag is true keeps it true under every sequence of public
operations: whatever task is stored under that id afterwards is still
completed (the flag only ever transitions false to true). -/
theorem completion_flag_one_way (ops : List Op) (s : TaskStore)
    (hinv : storeInv s) (t : Task) (hmem : t ∈ s.tasks)
    (hdone : t.is_done = true) :
    ∀ u ∈ (runOps s ops).tasks, u.id = t.id → u.is_done = true := by
  obtain ⟨hbound, hnodup⟩ := hinv
  apply runOps_done ops s t.id (hbound t hmem)
  intro v hv hvid
  have hvt : v = t := List.inj_on_of_nodup_map hnodup hv hmem hvid
  rw [hvt]
  exact hdone

/-- Witness for `completion_flag_one_way`: a completed task survives an
update, a fresh create, a delete of another task and a second complete. -/
theorem completion_flag_one_way_witness :
    storeInv ⟨[⟨1, "a", "low", true⟩, ⟨2, "b", "high", false⟩], 3⟩ ∧
    (⟨1, "a", "low", true⟩ : Task) ∈
      ([⟨1, "a", "low", true⟩, ⟨2, "b", "high", false⟩] : List Task) ∧
    ∀ u ∈ (runOps ⟨[⟨1, "a", "low", true⟩, ⟨2, "b", "high", false⟩], 3⟩
        [.update 1 (some (.str "a2")) none none, .create (.str "c") (.str "low") none,
         .delete 2 none, .complete 1 none]).tasks,
      u.id = (⟨1, "a", "low", true⟩ : Task).id → u.is_done = true := by
  refine ⟨⟨by decide, by decide⟩, by decide, ?_⟩
  exact completion_flag_one_way
    [.update 1 (some (.str "a2")) none none, .create (.str "c") (.str "low") none,
     .delete 2 none, .complete 1 none]
    ⟨[⟨1, "a", "low", true⟩, ⟨2, "b", "high", false⟩], 3⟩
    ⟨by decide, by decide⟩ ⟨1, "a", "low", true⟩ (by decide) (by decide)

end TaskRegistry
